import Mathlib

/-!
Shallow embedding of `src/flockwave/server/comm.py` (the `CommunicationManager`
of the skybrush server): connection entries, the alias table, the outbound
dispatch algorithm and the transmission-error classifier, together with proofs
checking the natural-language specification against the code.

Conventions of the embedding:
* packets and connections are opaque payloads, modelled as `Nat`;
* a Python object-identity comparison on channels (`is` / `is not`) is
  modelled by structural equality of `MessageChannel` values, each of which
  carries an `id` standing for the object identity;
* Python dicts (insertion ordered) are association lists; the manager only
  ever creates one binding per key;
* the awaited channel primitives `channel.send` / `channel.broadcast` are
  modelled by a behaviour oracle (`ChannelBehavior`) returning either success
  or the raised exception, and every channel invocation and logging call is
  recorded in an `Event` trace; a Python function that catches all exceptions
  internally is total here, so "raises no exception to the caller" is inherent
  in the return type;
* the flow-control sleep after a successful broadcast (`broadcast_delay`)
  is timing-only and has no observable effect that the claims mention, so it
  is not recorded in the trace.
-/

namespace Comm

/-- Opaque packet payload (`PacketType` in the source). -/
abbrev Packet := Nat

/-- An address on a channel, or the distinguished broadcast sentinel
(`BROADCAST = object()` in the source, compared by identity). -/
inductive Address where
  | BROADCAST : Address
  | addr : Nat → Address
deriving DecidableEq, Repr

/-- A message channel attached to a connection. `id` stands for the Python
object identity; `is_broadcast` records whether the object is an instance of
`BroadcastMessageChannel`, i.e. whether it exposes a broadcast primitive
(the source probes this once with `isinstance`). -/
structure MessageChannel where
  id : Nat
  is_broadcast : Bool
deriving DecidableEq, Repr

/-- `isinstance(channel, BroadcastMessageChannel)` for an optional channel;
`None` is not an instance of anything. -/
def isBroadcastChannel : Option MessageChannel → Bool
  | none => false
  | some ch => ch.is_broadcast

/-- `ErrorAction` (comm.py lines 76-79). -/
inductive ErrorAction where
  | SKIP_LOGGING
  | LOG_AND_SUSPEND
  | LOG
deriving DecidableEq, Repr

/-- `CommunicationManagerEntry` (comm.py lines 82-116): one managed connection
with its live channel, capability flags and consecutive-error counter.
The `connection` field is opaque. `_error_count` is written `error_count`. -/
structure CommunicationManagerEntry where
  connection : Nat
  name : String
  can_broadcast : Bool := false
  can_send : Bool := true
  channel : Option MessageChannel := none
  error_count : Nat := 0
deriving DecidableEq, Repr

/-- Short local name for the entry record. -/
abbrev Entry := CommunicationManagerEntry

/-- `CommunicationManagerEntry.is_open` (lines 159-164): the channel is
attached. -/
def Entry.is_open (e : Entry) : Bool := e.channel.isSome

/-- `CommunicationManagerEntry.notify_error` (lines 122-137): increment the
error count by one, then compare the new count with the limit to decide how
the error should be logged. -/
def Entry.notify_error (e : Entry) (limit : Nat) : Entry × ErrorAction :=
  if e.error_count + 1 > limit then
    ({ e with error_count := e.error_count + 1 }, ErrorAction.SKIP_LOGGING)
  else if e.error_count + 1 = limit then
    ({ e with error_count := e.error_count + 1 }, ErrorAction.LOG_AND_SUSPEND)
  else
    ({ e with error_count := e.error_count + 1 }, ErrorAction.LOG)

/-- `CommunicationManagerEntry.reset_error_count` (lines 139-148): zero the
counter, reporting whether it was non-zero. -/
def Entry.reset_error_count (e : Entry) : Entry × Bool :=
  if e.error_count > 0 then ({ e with error_count := 0 }, true) else (e, false)

/-- `CommunicationManagerEntry.set_channel` (lines 150-157): on an actual
reference change the channel is replaced, `can_broadcast` is recomputed and
the error count cleared; re-setting the identical channel is a no-op. -/
def Entry.set_channel (e : Entry) (channel : Option MessageChannel) : Entry :=
  if e.channel ≠ channel then
    { e with channel := channel,
             can_broadcast := isBroadcastChannel channel,
             error_count := 0 }
  else e

/-- `CommunicationManagerEntry.detach_channel` (lines 118-120). -/
def Entry.detach_channel (e : Entry) : Entry := e.set_channel none

/-- The entry state after `k` consecutive `notify_error` calls. -/
def iterate_notify (limit : Nat) : Nat → Entry → Entry
  | 0, e => e
  | k + 1, e => ((iterate_notify limit k e).notify_error limit).1

theorem notify_error_fst (e : Entry) (limit : Nat) :
    (e.notify_error limit).1 = { e with error_count := e.error_count + 1 } := by
  unfold Entry.notify_error
  split_ifs <;> rfl

theorem notify_error_count (e : Entry) (limit : Nat) :
    (e.notify_error limit).1.error_count = e.error_count + 1 := by
  rw [notify_error_fst]

theorem notify_error_snd (e : Entry) (limit : Nat) :
    (e.notify_error limit).2 =
      (if e.error_count + 1 > limit then ErrorAction.SKIP_LOGGING
       else if e.error_count + 1 = limit then ErrorAction.LOG_AND_SUSPEND
       else ErrorAction.LOG) := by
  unfold Entry.notify_error
  split_ifs <;> rfl

theorem iterate_notify_count (limit k : Nat) (e : Entry) :
    (iterate_notify limit k e).error_count = e.error_count + k := by
  induction k with
  | zero => rfl
  | succ k ih =>
    simp only [iterate_notify, notify_error_count, ih]
    omega

/-- A concrete entry used by the witnesses: fresh entry registered under
the name `"x"`. -/
def entry0 : Entry := { connection := 0, name := "x" }

/-- **C2.** For every entry and every positive limit `L`, a sequence of
`notify_error` calls starting from error count `0` returns `LOG` for each
call whose resulting count is in `1..L-1`, `LOG_AND_SUSPEND` exactly at the
call where the count reaches `L`, and `SKIP_LOGGING` for every call with
count beyond `L`; `reset_error_count` returns `true` iff the count was
non-zero, sets it to `0`, and the next `notify_error` restarts the count
at `1`.  Stated after `k` calls: the count equals `k`, the next (`k+1`-st)
call's action is determined by comparing `k+1` with `L`, and the reset
behaves as claimed. -/
theorem notify_error_sequence_spec (L k : Nat) (e : Entry)
    (hL : 0 < L) (h0 : e.error_count = 0) :
    (iterate_notify L k e).error_count = k
    ∧ ((iterate_notify L k e).notify_error L).2 =
        (if k + 1 < L then ErrorAction.LOG
         else if k + 1 = L then ErrorAction.LOG_AND_SUSPEND
         else ErrorAction.SKIP_LOGGING)
    ∧ ((iterate_notify L k e).reset_error_count).2 = decide (0 < k)
    ∧ ((iterate_notify L k e).reset_error_count).1.error_count = 0
    ∧ (((iterate_notify L k e).reset_error_count).1.notify_error L).1.error_count = 1 := by
  have hcount : (iterate_notify L k e).error_count = k := by
    rw [iterate_notify_count, h0, Nat.zero_add]
  refine ⟨hcount, ?_, ?_, ?_, ?_⟩
  · rw [notify_error_snd, hcount]
    rcases Nat.lt_trichotomy (k + 1) L with h | h | h
    · rw [if_neg (by omega), if_neg (by omega), if_pos h]
    · rw [if_neg (by omega), if_pos h, if_neg (by omega), if_pos h]
    · rw [if_pos h, if_neg (by omega), if_neg (by omega)]
  · unfold Entry.reset_error_count
    rw [hcount]
    split_ifs with h
    · exact (decide_eq_true h).symm
    · exact (decide_eq_false h).symm
  · unfold Entry.reset_error_count
    rw [hcount]
    split_ifs with h
    · rfl
    · simpa [hcount] using by omega
  · unfold Entry.reset_error_count
    rw [hcount]
    split_ifs with h
    · rw [notify_error_count]
    · rw [notify_error_count, hcount]
      omega

theorem notify_error_sequence_spec_witness :
    (iterate_notify 2 5 entry0).error_count = 5
    ∧ ((iterate_notify 2 5 entry0).notify_error 2).2 =
        (if 5 + 1 < 2 then ErrorAction.LOG
         else if 5 + 1 = 2 then ErrorAction.LOG_AND_SUSPEND
         else ErrorAction.SKIP_LOGGING)
    ∧ ((iterate_notify 2 5 entry0).reset_error_count).2 = decide (0 < 5)
    ∧ ((iterate_notify 2 5 entry0).reset_error_count).1.error_count = 0
    ∧ (((iterate_notify 2 5 entry0).reset_error_count).1.notify_error 2).1.error_count = 1 :=
  notify_error_sequence_spec 2 5 entry0 (by decide) rfl

/-- **C7.** `set_channel` with a channel different from the current one
replaces the channel, recomputes `can_broadcast` as `isinstance(channel,
BroadcastMessageChannel)` (true iff the new channel exposes a broadcast
primitive), and resets the error count to `0`; `set_channel` with the
identical channel leaves the whole entry unchanged. -/
theorem set_channel_spec (e : Entry) (c : Option MessageChannel)
    (h : c ≠ e.channel) :
    e.set_channel c =
      { e with channel := c, can_broadcast := isBroadcastChannel c,
               error_count := 0 }
    ∧ (e.set_channel c).can_broadcast = isBroadcastChannel c
    ∧ e.set_channel e.channel = e := by
  have hchange : e.set_channel c =
      { e with channel := c, can_broadcast := isBroadcastChannel c,
               error_count := 0 } := by
    unfold Entry.set_channel
    rw [if_pos (Ne.symm h)]
  refine ⟨hchange, ?_, ?_⟩
  · rw [hchange]
  · unfold Entry.set_channel
    rw [if_neg (by simp)]

theorem set_channel_spec_witness :
    entry0.set_channel (some ⟨1, true⟩) =
      { entry0 with channel := some ⟨1, true⟩,
                    can_broadcast := isBroadcastChannel (some ⟨1, true⟩),
                    error_count := 0 }
    ∧ (entry0.set_channel (some ⟨1, true⟩)).can_broadcast =
        isBroadcastChannel (some ⟨1, true⟩)
    ∧ entry0.set_channel entry0.channel = entry0 :=
  set_channel_spec entry0 (some ⟨1, true⟩) (by decide)

/-- The channel attach/detach operations through which an entry is mutated
during a run (`set_channel` is called by `_run_inbound_link`, and
`detach_channel` in its `finally` block). -/
inductive EntryOp where
  | set_channel : Option MessageChannel → EntryOp
  | detach_channel : EntryOp
deriving Repr

def apply_entry_op (e : Entry) : EntryOp → Entry
  | EntryOp.set_channel c => e.set_channel c
  | EntryOp.detach_channel => e.detach_channel

/-- The entry that `CommunicationManager.add` appends (lines 280-283): a
fresh entry with no channel and the default `can_broadcast = False`. -/
def added_entry (connection : Nat) (name : String) (can_send : Bool) : Entry :=
  { connection := connection, name := name, can_send := can_send }

/-- The invariant of C10: a broadcast-capable entry has a channel attached
(this is what lets `_send_message_to_all_channels` call the broadcast
primitive on any `can_broadcast` entry without a presence check). -/
def can_broadcast_implies_channel (e : Entry) : Prop :=
  e.can_broadcast = true → e.channel.isSome

theorem set_channel_preserves_invariant (e : Entry) (c : Option MessageChannel)
    (h : can_broadcast_implies_channel e) :
    can_broadcast_implies_channel (e.set_channel c) := by
  unfold Entry.set_channel
  split_ifs with hne
  · intro hcb
    cases c with
    | none => simp [isBroadcastChannel] at hcb
    | some ch => simp
  · exact h

theorem entry_ops_preserve_invariant (ops : List EntryOp) (e : Entry)
    (h : can_broadcast_implies_channel e) :
    can_broadcast_implies_channel (ops.foldl apply_entry_op e) := by
  induction ops generalizing e with
  | nil => exact h
  | cons op rest ih =>
    apply ih
    cases op with
    | set_channel c => exact set_channel_preserves_invariant e c h
    | detach_channel => exact set_channel_preserves_invariant e none h

/-- **C10.** For every entry created by `CommunicationManager.add` and
mutated only through `set_channel` / `detach_channel`, the invariant
`can_broadcast → channel ≠ None` holds after every sequence of operations. -/
theorem added_entry_invariant (connection : Nat) (name : String)
    (can_send : Bool) (ops : List EntryOp) :
    can_broadcast_implies_channel
      (ops.foldl apply_entry_op (added_entry connection name can_send)) := by
  apply entry_ops_preserve_invariant
  intro h
  simp [added_entry] at h

theorem added_entry_invariant_witness :
    can_broadcast_implies_channel
      (([EntryOp.set_channel (some ⟨3, true⟩), EntryOp.detach_channel]).foldl
        apply_entry_op (added_entry 0 "x" true)) :=
  added_entry_invariant 0 "x" true
    [EntryOp.set_channel (some ⟨3, true⟩), EntryOp.detach_channel]

/-! ### Insertion-ordered dictionaries as association lists -/

def dictGet {α : Type} (d : List (String × α)) (k : String) : Option α :=
  (d.find? (fun p => p.1 == k)).map Prod.snd

def dictSet {α : Type} (d : List (String × α)) (k : String) (v : α) :
    List (String × α) :=
  d.map (fun p => if p.1 == k then (k, v) else p)

theorem dictGet_cons {α : Type} (p : String × α) (d : List (String × α))
    (k : String) :
    dictGet (p :: d) k = if p.1 == k then some p.2 else dictGet d k := by
  unfold dictGet
  cases h : (p.1 == k) <;> simp [List.find?, h]

theorem dictGet_append_of_none {α : Type} (d d' : List (String × α))
    (k : String) (h : dictGet d k = none) :
    dictGet (d ++ d') k = dictGet d' k := by
  induction d with
  | nil => rfl
  | cons p rest ih =>
    rw [dictGet_cons] at h
    rw [List.cons_append, dictGet_cons]
    cases hpk : (p.1 == k) with
    | true => rw [hpk] at h; simp at h
    | false =>
      rw [hpk] at h
      simp only [Bool.false_eq_true, if_false] at h ⊢
      exact ih h

theorem filter_ne_key_of_none {α : Type} (d : List (String × α)) (k : String)
    (h : dictGet d k = none) :
    d.filter (fun p => !(p.1 == k)) = d := by
  induction d with
  | nil => rfl
  | cons p rest ih =>
    rw [dictGet_cons] at h
    cases hpk : (p.1 == k) with
    | true => rw [hpk] at h; simp at h
    | false =>
      rw [hpk] at h
      simp only [Bool.false_eq_true, if_false] at h
      rw [List.filter_cons, hpk]
      simp only [Bool.not_false, if_pos]
      rw [ih h]

theorem dictSet_cons {α : Type} (p : String × α) (d : List (String × α))
    (k : String) (v : α) :
    dictSet (p :: d) k v = (if p.1 == k then (k, v) else p) :: dictSet d k v :=
  rfl

theorem dictGet_dictSet_self {α : Type} (d : List (String × α)) (k : String)
    (v : α) (h : (dictGet d k).isSome) :
    dictGet (dictSet d k v) k = some v := by
  induction d with
  | nil => simp [dictGet] at h
  | cons p rest ih =>
    rw [dictGet_cons] at h
    rw [dictSet_cons]
    cases hpk : (p.1 == k) with
    | true =>
      simp only [hpk, if_true]
      rw [dictGet_cons]
      simp
    | false =>
      simp only [hpk, Bool.false_eq_true, if_false] at h
      simp only [hpk, Bool.false_eq_true, if_false]
      rw [dictGet_cons]
      simp only [hpk, Bool.false_eq_true, if_false]
      exact ih h

theorem dictGet_dictSet_ne {α : Type} (d : List (String × α)) (k k' : String)
    (v : α) (h : k' ≠ k) :
    dictGet (dictSet d k v) k' = dictGet d k' := by
  induction d with
  | nil => rfl
  | cons p rest ih =>
    rw [dictSet_cons]
    cases hpk : (p.1 == k) with
    | true =>
      have hp1 : p.1 = k := by simpa using hpk
      have hkk' : (k == k') = false := beq_eq_false_iff_ne.mpr (Ne.symm h)
      simp only [hpk, if_true]
      rw [dictGet_cons, dictGet_cons]
      simp only [hp1, hkk', Bool.false_eq_true, if_false]
      exact ih
    | false =>
      simp only [hpk, Bool.false_eq_true, if_false]
      rw [dictGet_cons, dictGet_cons]
      cases hpk' : (p.1 == k') with
      | true => simp only [hpk', if_true]
      | false =>
        simp only [hpk', Bool.false_eq_true, if_false]
        exact ih

theorem dictGet_append {α : Type} (d d' : List (String × α)) (k : String) :
    dictGet (d ++ d') k =
      (match dictGet d k with
       | some v => some v
       | none => dictGet d' k) := by
  induction d with
  | nil => rfl
  | cons p rest ih =>
    rw [List.cons_append, dictGet_cons, dictGet_cons]
    cases hpk : (p.1 == k) <;> simp [ih]

/-- `defaultdict(int)` read: a missing key counts as `0`
(`self._error_counters`). -/
def counterGet (d : List (String × Nat)) (k : String) : Nat :=
  (dictGet d k).getD 0

/-- `defaultdict(int)` write: replace the binding, or create it. -/
def counterSet (d : List (String × Nat)) (k : String) (v : Nat) :
    List (String × Nat) :=
  if (dictGet d k).isSome then dictSet d k v else d ++ [(k, v)]

theorem counterGet_counterSet_self (d : List (String × Nat)) (k : String)
    (v : Nat) : counterGet (counterSet d k v) k = v := by
  unfold counterSet counterGet
  split_ifs with h
  · rw [dictGet_dictSet_self d k v h]
    rfl
  · have hnone : dictGet d k = none := by
      cases hd : dictGet d k
      · rfl
      · rw [hd] at h; simp at h
    rw [dictGet_append_of_none d _ k hnone, dictGet_cons]
    simp

theorem counterGet_counterSet_ne (d : List (String × Nat)) (k k' : String)
    (v : Nat) (h : k' ≠ k) :
    counterGet (counterSet d k v) k' = counterGet d k' := by
  unfold counterSet counterGet
  split_ifs with hs
  · rw [dictGet_dictSet_ne d k k' v h]
  · rw [dictGet_append]
    cases hd : dictGet d k'
    · rw [dictGet_cons]
      have : (k == k') = false := beq_eq_false_iff_ne.mpr (Ne.symm h)
      simp [this, dictGet]
    · rfl

/-! ### The alias table (`_aliases`) -/

/-- The alias table: alias name to ordered list of target connection names. -/
abbrev Aliases := List (String × List String)

/-- `CommunicationManager.add_alias` (lines 285-295): fails if the alias is
already registered, otherwise records `list(targets)`; the returned disposer
is `partial(self.remove_alias, alias)`. Note that the source performs no
check at all on `targets` (in particular no non-emptiness check). -/
def add_alias (aliases : Aliases) (aliasName : String)
    (targets : List String) : Except String Aliases :=
  if (dictGet aliases aliasName).isSome then
    Except.error ("Alias already registered: " ++ aliasName)
  else
    Except.ok (aliases ++ [(aliasName, targets)])

/-- `CommunicationManager.remove_alias` (lines 428-432): `del` of the key,
raising `KeyError` when the alias is absent. -/
def remove_alias (aliases : Aliases) (aliasName : String) :
    Except String Aliases :=
  if (dictGet aliases aliasName).isSome then
    Except.ok (aliases.filter (fun p => !(p.1 == aliasName)))
  else
    Except.error "KeyError"

/-- **C6 counterexample.** The claim says `add_alias` "requires the target
list to be non-empty"; the code has no such check: registering alias `"a"`
with an empty target list succeeds and stores the empty list. -/
theorem add_alias_accepts_empty_targets :
    add_alias [] "a" [] = Except.ok [("a", [])] := by
  rfl

/-- **C6 (amended).** `add_alias` fails when the alias name is already
registered; it performs no non-emptiness check on the target list (an empty
list is accepted, see the counterexample); on success it appends the alias
binding, and the returned disposer (`remove_alias` applied to the alias
name) removes exactly that binding, restoring the previous table. -/
theorem add_alias_spec (t : Aliases) (a : String) (ts : List String) :
    ((dictGet t a).isSome →
        add_alias t a ts = Except.error ("Alias already registered: " ++ a))
    ∧ (dictGet t a = none →
        add_alias t a ts = Except.ok (t ++ [(a, ts)])
        ∧ dictGet (t ++ [(a, ts)]) a = some ts
        ∧ remove_alias (t ++ [(a, ts)]) a = Except.ok t) := by
  constructor
  · intro h
    unfold add_alias
    rw [if_pos h]
  · intro h
    have hfind : dictGet (t ++ [(a, ts)]) a = some ts := by
      rw [dictGet_append_of_none t _ a h, dictGet_cons]
      simp
    refine ⟨?_, hfind, ?_⟩
    · unfold add_alias
      rw [if_neg (by rw [h]; simp)]
    · unfold remove_alias
      rw [if_pos (by rw [hfind]; simp)]
      rw [List.filter_append, filter_ne_key_of_none t a h]
      simp

/-! ### Blocking submission into the outbound queue -/

/-- The destinations that travel in the outbound queue: the broadcast
sentinel, or a `(name, address)` pair (`destination is BROADCAST` is the
dispatcher's test, lines 568-572). -/
inductive OutboundDestination where
  | BROADCAST : OutboundDestination
  | named : String × Address → OutboundDestination
deriving DecidableEq, Repr

/-- Observable outcome of one blocking submission call: the item enqueued
into the outbound queue, a silent no-op return, or a raised
`BrokenResourceError` with its message. -/
inductive SubmissionResult where
  | enqueued : Packet × OutboundDestination → SubmissionResult
  | noop : SubmissionResult
  | raised : String → SubmissionResult
deriving DecidableEq, Repr

/-- The outbound queue as the submission calls see it: `none` models
`self._outbound_tx_queue` being `None` (dispatcher not running). -/
abbrev OutboundQueue := Option (List (Packet × OutboundDestination))

/-- `CommunicationManager.send_packet` (lines 434-452).  Note that the
source signature is `send_packet(self, packet, destination)`: it has no
failure-tolerance flag. -/
def send_packet (queue : OutboundQueue) (packet : Packet)
    (destination : String × Address) : SubmissionResult :=
  match queue with
  | none => SubmissionResult.raised "Outbound message queue is closed"
  | some _ =>
    SubmissionResult.enqueued (packet, OutboundDestination.named destination)

/-- `CommunicationManager.broadcast_packet` (lines 297-323): optional single
destination, and an `allow_failure` flag consulted when the queue is not
running. -/
def broadcast_packet (queue : OutboundQueue) (packet : Packet)
    (destination : Option String) (allow_failure : Bool) : SubmissionResult :=
  match queue with
  | none =>
    if !allow_failure then
      SubmissionResult.raised "Outbound message queue is closed"
    else
      SubmissionResult.noop
  | some _ =>
    SubmissionResult.enqueued (packet,
      match destination with
      | none => OutboundDestination.BROADCAST
      | some d => OutboundDestination.named (d, Address.BROADCAST))

/-- The C4 claim's assertion restricted to `send_packet`, following the
claim's words: some call of `send_packet` on a closed outbound queue is a
silent no-op (a caller-settable tolerate-failure mode).  The source function
takes no such flag, so the property quantifies over every argument the call
does take. -/
def send_packet_has_tolerate_failure_mode : Prop :=
  ∃ (packet : Packet) (destination : String × Address),
    send_packet none packet destination = SubmissionResult.noop

/-- **C4 counterexample.** No call of `send_packet` on a closed outbound
queue is a silent no-op: `send_packet` exposes no tolerate-failure flag and
always raises, contradicting the claim that both blocking submission
operations can be made to tolerate failure. -/
theorem send_packet_never_tolerates_failure :
    ¬ send_packet_has_tolerate_failure_mode := by
  rintro ⟨p, d, h⟩
  simp [send_packet] at h

/-- **C4 (amended).** `broadcast_packet` fails with a closed-resource error
when the outbound queue is not running unless its `allow_failure` flag is
set, in which case it is a silent no-op; `send_packet` exposes no such flag
and always fails with the closed-resource error when the queue is not
running.  When the queue is running both calls enqueue the packet. -/
theorem closed_queue_submission_spec (packet : Packet)
    (destination : String × Address) (bdest : Option String)
    (q : List (Packet × OutboundDestination)) :
    send_packet none packet destination =
        SubmissionResult.raised "Outbound message queue is closed"
    ∧ broadcast_packet none packet bdest false =
        SubmissionResult.raised "Outbound message queue is closed"
    ∧ broadcast_packet none packet bdest true = SubmissionResult.noop
    ∧ send_packet (some q) packet destination =
        SubmissionResult.enqueued
          (packet, OutboundDestination.named destination)
    ∧ broadcast_packet (some q) packet none false =
        SubmissionResult.enqueued (packet, OutboundDestination.BROADCAST) :=
  ⟨rfl, rfl, rfl, rfl, rfl⟩

/-! ### The outbound dispatch algorithm and the error classifier -/

/-- `errno` module constants as on Linux (the values only matter for being
pairwise distinct; the source compares `ex.errno` against them). -/
def EADDRNOTAVAIL : Int := 99

def ENETDOWN : Int := 100

def ENETUNREACH : Int := 101

def EHOSTDOWN : Int := 112

def EHOSTUNREACH : Int := 113

/-- Special Windows error codes (comm.py lines 67-73). -/
def WSAENETDOWN : Int := 10050

def WSAENETUNREACH : Int := 10051

def WSAEHOSTDOWN : Int := 10064

def WSAEHOSTUNREACH : Int := 10065

/-- The transport exceptions the dispatch loop distinguishes: `OSError`
with its optional `errno`, `trio.BrokenResourceError`, or any other
exception. -/
inductive TxError where
  | osError : Option Int → TxError
  | brokenResource : TxError
  | otherError : TxError
deriving DecidableEq, Repr

/-- The observable actions of the dispatch code.  The two channel
invocations record the awaited primitive with its payload; the `log*`
constructors stand for the logging calls, carrying the `id` field of the
log record:

* `sendAttempt ch msg a`: `await channel.send((message, address))`;
* `broadcastAttempt ch msg`: `await channel.broadcast((message, BROADCAST))`;
* `logResumed`: `log.info("Channel resumed normal operation")`;
* `logNetworkDown` / `logHostDown`: the two benign, no-stack-trace
  `log.error` buckets of `_log_os_error_during_tx`;
* `logOsErrorExceptionTrace`: the `log.exception` (with stack trace) for an
  unclassified `OSError` code;
* `logChannelBroken`: `log.error("Channel is broken")`;
* `logErrorSending`: `log.error("Error while sending message")`;
* `logSendExceptionTrace`: `log.exception("Error while sending message")`
  (with stack trace, lines 707-712);
* `logSuspendNotice`: `log.warning("Error reporting suspended until the
  connection recovers")`;
* `logDropAllFailed` / `logDropNoChannel`: the two "Dropping outbound
  message" warnings (lines 658-669). -/
inductive Event where
  | sendAttempt : MessageChannel → Packet → Address → Event
  | broadcastAttempt : MessageChannel → Packet → Event
  | logResumed : String → Event
  | logNetworkDown : String → Event
  | logHostDown : String → Event
  | logOsErrorExceptionTrace : String → Event
  | logChannelBroken : String → Event
  | logErrorSending : String → Event
  | logSendExceptionTrace : String → Event
  | logSuspendNotice : String → Event
  | logDropAllFailed : String → Event
  | logDropNoChannel : String → Event
deriving DecidableEq, Repr

/-- `f"{name}[{index}]"`. -/
def formatted_id (name : String) (index : Nat) : String :=
  name ++ "[" ++ toString index ++ "]"

/-- The membership test `ex.errno in (...)`; a `None` errno is in no tuple. -/
def errnoIn (errno : Option Int) (codes : List Int) : Bool :=
  match errno with
  | none => false
  | some e => codes.contains e

/-- `_log_os_error_during_tx` (lines 714-756): bucket the platform error
code into network-down, host-down, or a full `log.exception`. -/
def _log_os_error_during_tx (errno : Option Int) (fid : String) : List Event :=
  if errnoIn errno
      [ENETDOWN, ENETUNREACH, EADDRNOTAVAIL, WSAENETDOWN, WSAENETUNREACH] then
    [Event.logNetworkDown fid]
  else if errnoIn errno
      [EHOSTDOWN, EHOSTUNREACH, WSAEHOSTDOWN, WSAEHOSTUNREACH] then
    [Event.logHostDown fid]
  else
    [Event.logOsErrorExceptionTrace fid]

/-- `_handle_tx_error` (lines 671-712): advance the per-entry error counter
via `notify_error` and, unless the action is `SKIP_LOGGING`, log according
to the classification.  The source's two trailing blocks are modelled
faithfully: the suspend notice when the action is `LOG_AND_SUSPEND`, and
then, for every non-`OSError` exception, the additional
`log.exception` call of lines 707-712.  `format_address` only affects
message text, which the events do not carry, and its internal
`try/except` never lets an exception escape. -/
def _handle_tx_error (error_limit : Nat) (ex : TxError) (address : Address)
    (entry : Entry) (index : Nat) : Entry × List Event :=
  let ea := entry.notify_error error_limit
  if ea.2 = ErrorAction.SKIP_LOGGING then (ea.1, [])
  else
    let fid := formatted_id entry.name index
    let classified :=
      match ex with
      | TxError.osError errno => _log_os_error_during_tx errno fid
      | TxError.brokenResource => [Event.logChannelBroken fid]
      | TxError.otherError => [Event.logErrorSending fid]
    let suspendNote :=
      if ea.2 = ErrorAction.LOG_AND_SUSPEND then [Event.logSuspendNotice fid]
      else []
    let trace :=
      match ex with
      | TxError.osError _ => []
      | _ => [Event.logSendExceptionTrace fid]
    (ea.1, classified ++ suspendNote ++ trace)

/-- Behaviour oracle for the awaited channel primitives: the outcome
(success, or the exception raised) of `channel.send((message, address))`
and of `channel.broadcast((message, BROADCAST))`. -/
structure ChannelBehavior where
  send : MessageChannel → Packet → Address → Except TxError Unit
  broadcast : MessageChannel → Packet → Except TxError Unit

/-- The manager state that the outbound dispatch reads and writes:
`_entries_by_name`, `_aliases` and `_error_counters` (leading underscores
dropped). -/
structure CommunicationManager where
  entries_by_name : List (String × List Entry)
  aliases : Aliases
  error_counters : List (String × Nat)
deriving DecidableEq, Repr

/-- Python truthiness of `self._entries_by_name.get(name)`: key present
with a non-empty list. -/
def optListTruthy {α : Type} : Option (List α) → Bool
  | some (_ :: _) => true
  | _ => false

/-- The body of the `for index, entry in enumerate(entries)` loop of
`_send_message_to_single_channel` (lines 615-648).  The `sent` flag is the
accumulated one of the source: note that after an earlier success it also
triggers the `reset_error_count` call on a later entry that attempted
nothing (broadcast address, entry not broadcast-capable), exactly as the
source's `if sent:` does.  The `try/except` around `_handle_tx_error`
(meta-error guard) is unreachable here because the handler is total. -/
def _send_loop_step (beh : ChannelBehavior) (error_limit : Nat)
    (message : Packet) (name : String) (address : Address)
    (index : Nat) (sent : Bool) (entry : Entry) : Entry × Bool × List Event :=
  if entry.is_open && entry.can_send then
    match entry.channel with
    | none => (entry, sent, [])
    | some channel =>
      if address = Address.BROADCAST then
        if entry.can_broadcast then
          match beh.broadcast channel message with
          | Except.ok _ =>
            let er := entry.reset_error_count
            (er.1, true,
              Event.broadcastAttempt channel message ::
                (if er.2 then [Event.logResumed (formatted_id name index)]
                 else []))
          | Except.error ex =>
            let ee := _handle_tx_error error_limit ex address entry index
            (ee.1, sent, Event.broadcastAttempt channel message :: ee.2)
        else
          if sent then
            let er := entry.reset_error_count
            (er.1, sent,
              if er.2 then [Event.logResumed (formatted_id name index)]
              else [])
          else (entry, sent, [])
      else
        match beh.send channel message address with
        | Except.ok _ =>
          let er := entry.reset_error_count
          (er.1, true,
            Event.sendAttempt channel message address ::
              (if er.2 then [Event.logResumed (formatted_id name index)]
               else []))
        | Except.error ex =>
          let ee := _handle_tx_error error_limit ex address entry index
          (ee.1, sent, Event.sendAttempt channel message address :: ee.2)
  else (entry, sent, [])

/-- The whole `for index, entry in enumerate(entries)` loop, threading the
enumeration index and the `sent` flag and collecting the mutated entries
and the trace. -/
def _send_loop (beh : ChannelBehavior) (error_limit : Nat) (message : Packet)
    (name : String) (address : Address) :
    Nat → Bool → List Entry → List Entry × Bool × List Event
  | _, sent, [] => ([], sent, [])
  | index, sent, entry :: rest =>
    let s := _send_loop_step beh error_limit message name address index sent
      entry
    let r := _send_loop beh error_limit message name address (index + 1)
      s.2.1 rest
    (s.1 :: r.1, r.2.1, s.2.2 ++ r.2.2)

/-- The tail of `_send_message_to_single_channel` from `sent = False`
(line 611) to the end, with `name`, `address` and the resolved `entries`
local variables as they stand at that point.  The in-place mutation of the
entry objects is a `dictSet` under the resolved name; the per-name failure
counter is updated as in lines 650-669. -/
def _send_resolved (beh : ChannelBehavior) (error_limit : Nat)
    (message : Packet) (st : CommunicationManager) (name : String)
    (address : Address) (entries : Option (List Entry)) :
    CommunicationManager × List Event :=
  let looped :=
    match entries with
    | none => (none, false, ([] : List Event))
    | some es =>
      let l := _send_loop beh error_limit message name address 0 false es
      (some l.1, l.2.1, l.2.2)
  let st1 :=
    match looped.1 with
    | none => st
    | some es' =>
      { st with entries_by_name := dictSet st.entries_by_name name es' }
  if looped.2.1 then
    ({ st1 with error_counters := counterSet st1.error_counters name 0 },
      looped.2.2)
  else
    let error_counter := counterGet st1.error_counters name + 1
    let st2 := { st1 with
      error_counters := counterSet st1.error_counters name error_counter }
    let warn :=
      if address = Address.BROADCAST then ([] : List Event)
      else if error_counter ≤ error_limit then
        [if optListTruthy entries then Event.logDropAllFailed name
         else Event.logDropNoChannel name]
      else []
    (st2, looped.2.2 ++ warn)

/-- `_send_message_to_single_channel` (lines 589-669).  The recursion (only
reached through the multi-target alias fan-out, and in the source only ever
descending into names that have direct registry entries) is modelled with a
fuel argument; fuel `0` is never reached from any positive fuel the
theorems use. -/
def _send_message_to_single_channel (beh : ChannelBehavior)
    (error_limit : Nat) (message : Packet) :
    Nat → CommunicationManager → String → Address →
      CommunicationManager × List Event
  | 0, st, _, _ => (st, [])
  | fuel + 1, st, name, address =>
    let entries := dictGet st.entries_by_name name
    if optListTruthy entries then
      _send_resolved beh error_limit message st name address entries
    else
      match dictGet st.aliases name with
      | none => (st, [])
      | some targets =>
        match targets with
        | [] => (st, [])
        | [t] =>
          _send_resolved beh error_limit message st t address
            (dictGet st.entries_by_name t)
        | _ :: _ :: _ =>
          targets.foldl
            (fun acc target =>
              if (dictGet acc.1.entries_by_name target).isSome then
                let r := _send_message_to_single_channel beh error_limit
                  message fuel acc.1 target address
                (r.1, acc.2 ++ r.2)
              else acc)
            (st, ([] : List Event))

/-- `CommunicationManager._iter_entries` (lines 465-469): every entry across
all names, in registration order. -/
def _iter_entries (st : CommunicationManager) : List Entry :=
  (st.entries_by_name.map Prod.snd).flatten

/-- `_send_message_to_all_channels` (lines 574-587): for each
broadcast-capable entry call the broadcast primitive with
`(message, BROADCAST)`, swallowing any per-entry exception (the
`except Exception: pass`); an entry whose `can_broadcast` flag is stale
(channel `None`) raises on the attribute access, which the same handler
swallows, so such an entry invokes no primitive.  Nothing is mutated and
no exception ever reaches the caller, so the result is the trace alone. -/
def _send_message_to_all_channels (beh : ChannelBehavior)
    (st : CommunicationManager) (message : Packet) : List Event :=
  (_iter_entries st).filterMap
    (fun entry =>
      if entry.can_broadcast then
        match entry.channel with
        | some channel =>
          match beh.broadcast channel message with
          | Except.ok _ => some (Event.broadcastAttempt channel message)
          | Except.error _ => some (Event.broadcastAttempt channel message)
        | none => none
      else none)

/-! ### C1: dispatch to an unknown name with no alias -/

/-- Always-succeeding channel behaviour, used by the concrete runs. -/
def behOk : ChannelBehavior :=
  { send := fun _ _ _ => Except.ok (), broadcast := fun _ _ => Except.ok () }

/-- The empty manager: nothing registered, no aliases. -/
def mgr0 : CommunicationManager :=
  { entries_by_name := [], aliases := [], error_counters := [] }

/-- **C1 counterexample.** Dispatching packet `7` to the unknown name `"X"`
(no registry entries, no alias) is a complete no-op: the state is returned
unchanged and, contrary to the claim, the per-name consecutive-failure
counter for `"X"` stays `0` instead of being incremented to `1` — the
source returns at line 599 before reaching the counter update. -/
theorem dispatch_unknown_name_counter_stays_zero :
    _send_message_to_single_channel behOk 5 7 3 mgr0 "X" (Address.addr 0)
        = (mgr0, [])
    ∧ counterGet (_send_message_to_single_channel behOk 5 7 3 mgr0 "X"
        (Address.addr 0)).1.error_counters "X" = 0 :=
  ⟨rfl, rfl⟩

/-- **C1 (amended).** For every packet dispatched to a destination name that
has no registry entries and no matching alias, the dispatch is a no-op that
raises no exception (the function is total and returns an empty trace) and
leaves the whole state — in particular the per-name consecutive-failure
counter for that name — unchanged. -/
theorem dispatch_unknown_name_noop (beh : ChannelBehavior)
    (error_limit : Nat) (message : Packet) (fuel : Nat)
    (st : CommunicationManager) (name : String) (address : Address)
    (hentries : optListTruthy (dictGet st.entries_by_name name) = false)
    (halias : dictGet st.aliases name = none) :
    _send_message_to_single_channel beh error_limit message fuel st name
        address = (st, [])
    ∧ counterGet (_send_message_to_single_channel beh error_limit message
        fuel st name address).1.error_counters name
      = counterGet st.error_counters name := by
  have hmain : _send_message_to_single_channel beh error_limit message fuel
      st name address = (st, []) := by
    cases fuel with
    | zero => rfl
    | succ f =>
      simp only [_send_message_to_single_channel, hentries, halias,
        Bool.false_eq_true, if_false]
  exact ⟨hmain, by rw [hmain]⟩

theorem dispatch_unknown_name_noop_witness :
    _send_message_to_single_channel behOk 5 7 2 mgr0 "Y" (Address.BROADCAST)
        = (mgr0, [])
    ∧ counterGet (_send_message_to_single_channel behOk 5 7 2 mgr0 "Y"
        (Address.BROADCAST)).1.error_counters "Y"
      = counterGet mgr0.error_counters "Y" :=
  dispatch_unknown_name_noop behOk 5 7 2 mgr0 "Y" Address.BROADCAST rfl rfl

/-! ### C9: the transmission-error classifier -/

/-- **C9 (evaluation at the failing input).** A `trio.BrokenResourceError`
raised by a send, with the entry's error count at `0` and the default limit
`5`, makes `_handle_tx_error` log "Channel is broken" **and then also**
`log.exception("Error while sending message")` with a stack trace — the
trailing `if not isinstance(ex, OSError)` block of lines 707-712 — whereas
the claim says the broken-channel condition is logged without a stack
trace.  The network-down and host-down buckets (shown here at
`ENETUNREACH` and at the alternate Windows code `WSAEHOSTDOWN`) behave as
claimed: one benign record each. -/
theorem handle_tx_error_broken_channel_logs_stack_trace :
    (_handle_tx_error 5 TxError.brokenResource (Address.addr 0) entry0 0).2
      = [Event.logChannelBroken (formatted_id "x" 0),
         Event.logSendExceptionTrace (formatted_id "x" 0)]
    ∧ (_handle_tx_error 5 (TxError.osError (some ENETUNREACH))
        (Address.addr 0) entry0 0).2
      = [Event.logNetworkDown (formatted_id "x" 0)]
    ∧ (_handle_tx_error 5 (TxError.osError (some WSAEHOSTDOWN))
        (Address.addr 0) entry0 0).2
      = [Event.logHostDown (formatted_id "x" 0)] :=
  ⟨rfl, rfl, rfl⟩

/-! ### C8: broadcast to all channels -/

theorem all_channels_step_eq (beh : ChannelBehavior) (message : Packet)
    (entry : Entry) :
    (if entry.can_broadcast then
        match entry.channel with
        | some channel =>
          match beh.broadcast channel message with
          | Except.ok _ => some (Event.broadcastAttempt channel message)
          | Except.error _ => some (Event.broadcastAttempt channel message)
        | none => none
      else none)
    = entry.channel.bind (fun ch =>
        if entry.can_broadcast then some (Event.broadcastAttempt ch message)
        else none) := by
  cases hcb : entry.can_broadcast <;> cases hch : entry.channel <;>
    simp only [Bool.false_eq_true, if_false, if_true, Option.bind_none,
      Option.bind_some, Option.some_bind, Option.none_bind]
  case true.some ch => cases beh.broadcast ch message <;> rfl

theorem send_to_all_channels_trace (beh : ChannelBehavior)
    (st : CommunicationManager) (message : Packet) :
    _send_message_to_all_channels beh st message =
      (_iter_entries st).filterMap
        (fun e => e.channel.bind (fun ch =>
          if e.can_broadcast then some (Event.broadcastAttempt ch message)
          else none)) := by
  unfold _send_message_to_all_channels
  exact List.filterMap_congr (fun e _ => all_channels_step_eq beh message e)

theorem all_channels_trace_length (message : Packet) (l : List Entry)
    (h : ∀ e ∈ l, e.can_broadcast = true → e.channel.isSome) :
    (l.filterMap
        (fun e => e.channel.bind (fun ch =>
          if e.can_broadcast then some (Event.broadcastAttempt ch message)
          else none))).length
      = (l.filter (fun e => e.can_broadcast)).length := by
  induction l with
  | nil => rfl
  | cons e rest ih =>
    have hrest := ih (fun x hx => h x (List.mem_cons_of_mem e hx))
    rw [List.filterMap_cons, List.filter_cons]
    cases hcb : e.can_broadcast with
    | false =>
      cases hch : e.channel <;>
        simp only [Option.bind_none, Option.some_bind, Option.none_bind,
          Bool.false_eq_true, if_false, hrest]
    | true =>
      have hs := h e (List.mem_cons_self e rest) hcb
      cases hch : e.channel with
      | none => rw [hch] at hs; simp at hs
      | some ch =>
        simp only [Option.some_bind, if_true, if_pos, List.length_cons,
          hrest]

/-- **C8.** Dispatching a packet to the broadcast sentinel invokes the
broadcast primitive with `(packet, BROADCAST)` on exactly those entries —
across all names, in registration order — whose `can_broadcast` flag is
true (given the C10 invariant that such entries have a channel), skips
every entry with `can_broadcast = false`, and swallows every per-entry
exception: the trace is the same for every behaviour oracle, no error
outcome exists, and nothing is mutated. -/
theorem broadcast_to_all_spec (beh beh' : ChannelBehavior)
    (st : CommunicationManager) (message : Packet)
    (h : ∀ e ∈ _iter_entries st, e.can_broadcast = true → e.channel.isSome) :
    _send_message_to_all_channels beh st message =
      (_iter_entries st).filterMap
        (fun e => e.channel.bind (fun ch =>
          if e.can_broadcast then some (Event.broadcastAttempt ch message)
          else none))
    ∧ (_send_message_to_all_channels beh st message).length =
        ((_iter_entries st).filter (fun e => e.can_broadcast)).length
    ∧ _send_message_to_all_channels beh st message =
        _send_message_to_all_channels beh' st message := by
  have h1 := send_to_all_channels_trace beh st message
  have h1' := send_to_all_channels_trace beh' st message
  refine ⟨h1, ?_, ?_⟩
  · rw [h1]
    exact all_channels_trace_length message (_iter_entries st) h
  · rw [h1, h1']

/-- A broadcast-capable entry with a channel, for the C8 witness. -/
def entryB : Entry :=
  { connection := 1, name := "b", can_broadcast := true,
    channel := some ⟨2, true⟩ }

/-- A two-name manager: one broadcast-capable entry and one plain one. -/
def mgrB : CommunicationManager :=
  { entries_by_name := [("b", [entryB]), ("x", [entry0])],
    aliases := [], error_counters := [] }

theorem broadcast_to_all_spec_witness :
    _send_message_to_all_channels behOk mgrB 42 =
      (_iter_entries mgrB).filterMap
        (fun e => e.channel.bind (fun ch =>
          if e.can_broadcast then some (Event.broadcastAttempt ch 42)
          else none))
    ∧ (_send_message_to_all_channels behOk mgrB 42).length =
        ((_iter_entries mgrB).filter (fun e => e.can_broadcast)).length
    ∧ _send_message_to_all_channels behOk mgrB 42 =
        _send_message_to_all_channels behOk mgrB 42 :=
  broadcast_to_all_spec behOk behOk mgrB 42 (by decide)

/-! ### C3: the per-name dispatch loop -/

/-- Is the event a channel invocation (as opposed to a log record)? -/
def tx_attempt : Event → Bool
  | Event.sendAttempt _ _ _ => true
  | Event.broadcastAttempt _ _ => true
  | _ => false

/-- The channel invocations of a trace, in order. -/
def tx_attempts (evs : List Event) : List Event := evs.filter tx_attempt

/-- The channel invocation one entry receives in the dispatch loop: a send
when the entry is open and `can_send`; a broadcast when additionally the
address is the sentinel and the entry is broadcast-capable; nothing
otherwise. -/
def planned_attempt (message : Packet) (address : Address) (e : Entry) :
    Option Event :=
  if e.is_open && e.can_send then
    e.channel.bind (fun ch =>
      if address = Address.BROADCAST then
        if e.can_broadcast then some (Event.broadcastAttempt ch message)
        else none
      else some (Event.sendAttempt ch message address))
  else none

theorem log_os_error_no_attempts (errno : Option Int) (fid : String) :
    List.filter tx_attempt (_log_os_error_during_tx errno fid) = [] := by
  unfold _log_os_error_during_tx
  split_ifs <;> rfl

theorem handle_tx_error_no_attempts (error_limit : Nat) (ex : TxError)
    (address : Address) (entry : Entry) (index : Nat) :
    tx_attempts (_handle_tx_error error_limit ex address entry index).2
      = [] := by
  unfold tx_attempts
  simp only [_handle_tx_error]
  cases ex <;> split_ifs <;> dsimp only [] <;>
    first
      | rfl
      | (rw [List.filter_append, List.filter_append,
          log_os_error_no_attempts]
         rfl)

theorem handle_tx_error_entry (error_limit : Nat) (ex : TxError)
    (address : Address) (entry : Entry) (index : Nat) :
    (_handle_tx_error error_limit ex address entry index).1
      = (entry.notify_error error_limit).1 := by
  simp only [_handle_tx_error]
  split_ifs <;> rfl

theorem tx_attempts_append (l l' : List Event) :
    tx_attempts (l ++ l') = tx_attempts l ++ tx_attempts l' :=
  List.filter_append l l'

theorem filter_resumed (b : Bool) (s : String) :
    List.filter tx_attempt (if b then [Event.logResumed s] else []) = [] := by
  cases b <;> rfl

theorem send_loop_step_attempts (beh : ChannelBehavior) (error_limit : Nat)
    (message : Packet) (name : String) (address : Address) (index : Nat)
    (sent : Bool) (entry : Entry) :
    tx_attempts (_send_loop_step beh error_limit message name address index
        sent entry).2.2
      = (planned_attempt message address entry).toList := by
  unfold tx_attempts _send_loop_step planned_attempt
  by_cases hoc : (entry.is_open && entry.can_send) = true
  · cases hch : entry.channel with
    | none => simp [hoc]
    | some ch =>
      simp only [hoc, if_true, Option.some_bind]
      by_cases hba : address = Address.BROADCAST
      · subst hba
        simp only [if_pos rfl]
        cases hcb : entry.can_broadcast with
        | true =>
          simp only [if_true]
          cases hout : beh.broadcast ch message with
          | ok u =>
            dsimp only []
            rw [List.filter_cons]
            rw [filter_resumed]
            rfl
          | error ex =>
            dsimp only []
            rw [List.filter_cons]
            rw [show List.filter tx_attempt
                  (_handle_tx_error error_limit ex Address.BROADCAST entry
                    index).2 = []
                from handle_tx_error_no_attempts error_limit ex
                  Address.BROADCAST entry index]
            rfl
        | false =>
          simp only [Bool.false_eq_true, if_false]
          cases sent with
          | true =>
            simp only [if_true]
            try dsimp only []
            rw [filter_resumed]
            rfl
          | false => rfl
      · simp only [if_neg hba]
        cases hout : beh.send ch message address with
        | ok u =>
          dsimp only []
          rw [List.filter_cons]
          rw [filter_resumed]
          rfl
        | error ex =>
          dsimp only []
          rw [List.filter_cons]
          rw [show List.filter tx_attempt
                (_handle_tx_error error_limit ex address entry index).2 = []
              from handle_tx_error_no_attempts error_limit ex address entry
                index]
          rfl
  · simp only [Bool.not_eq_true] at hoc
    simp [hoc]

theorem send_loop_attempts (beh : ChannelBehavior) (error_limit : Nat)
    (message : Packet) (name : String) (address : Address) :
    ∀ (es : List Entry) (index : Nat) (sent : Bool),
    tx_attempts (_send_loop beh error_limit message name address index sent
        es).2.2
      = es.filterMap (planned_attempt message address) := by
  intro es
  induction es with
  | nil => intro index sent; rfl
  | cons e rest ih =>
    intro index sent
    simp only [_send_loop]
    try dsimp only []
    rw [tx_attempts_append, send_loop_step_attempts, ih, List.filterMap_cons]
    cases hp : planned_attempt message address e with
    | none => rfl
    | some ev => rfl

/-- What the loop body does to one entry under a non-broadcast address:
nothing when the entry is skipped, `reset_error_count` on a successful
send, `notify_error` (the error classifier) on an exception. -/
def send_step_entry (beh : ChannelBehavior) (error_limit : Nat)
    (message : Packet) (address : Address) (e : Entry) : Entry :=
  if e.is_open && e.can_send then
    match e.channel with
    | some ch =>
      match beh.send ch message address with
      | Except.ok _ => e.reset_error_count.1
      | Except.error _ => (e.notify_error error_limit).1
    | none => e
  else e

theorem send_loop_step_entry_nonbroadcast (beh : ChannelBehavior)
    (error_limit : Nat) (message : Packet) (name : String)
    (address : Address) (index : Nat) (sent : Bool) (entry : Entry)
    (h : address ≠ Address.BROADCAST) :
    (_send_loop_step beh error_limit message name address index sent
        entry).1
      = send_step_entry beh error_limit message address entry := by
  unfold _send_loop_step send_step_entry
  by_cases hoc : (entry.is_open && entry.can_send) = true
  · cases hch : entry.channel with
    | none => simp [hoc]
    | some ch =>
      simp only [hoc, if_true, if_neg h]
      cases hout : beh.send ch message address with
      | ok u => rfl
      | error ex =>
        dsimp only []
        exact handle_tx_error_entry error_limit ex address entry index
  · simp only [Bool.not_eq_true] at hoc
    simp [hoc]

theorem send_loop_entries_nonbroadcast (beh : ChannelBehavior)
    (error_limit : Nat) (message : Packet) (name : String)
    (address : Address) (h : address ≠ Address.BROADCAST) :
    ∀ (es : List Entry) (index : Nat) (sent : Bool),
    (_send_loop beh error_limit message name address index sent es).1
      = es.map (send_step_entry beh error_limit message address) := by
  intro es
  induction es with
  | nil => intro index sent; rfl
  | cons e rest ih =>
    intro index sent
    simp only [_send_loop]
    try dsimp only []
    rw [send_loop_step_entry_nonbroadcast beh error_limit message name
      address index sent e h, ih, List.map_cons]

theorem send_resolved_attempts (beh : ChannelBehavior) (error_limit : Nat)
    (message : Packet) (st : CommunicationManager) (name : String)
    (address : Address) (es : List Entry) :
    tx_attempts (_send_resolved beh error_limit message st name address
        (some es)).2
      = es.filterMap (planned_attempt message address) := by
  simp only [_send_resolved]
  split_ifs <;> dsimp only [] <;>
    first
      | exact send_loop_attempts beh error_limit message name address es 0
          false
      | (rw [tx_attempts_append,
          send_loop_attempts beh error_limit message name address es 0
            false]
         first
           | rw [show tx_attempts ([] : List Event) = [] from rfl,
               List.append_nil]
           | rw [show tx_attempts [Event.logDropAllFailed name] = []
               from rfl, List.append_nil]
           | rw [show tx_attempts [Event.logDropNoChannel name] = []
               from rfl, List.append_nil])

theorem send_resolved_entries_nonbroadcast (beh : ChannelBehavior)
    (error_limit : Nat) (message : Packet) (st : CommunicationManager)
    (name : String) (address : Address) (es : List Entry)
    (hkey : (dictGet st.entries_by_name name).isSome)
    (hba : address ≠ Address.BROADCAST) :
    dictGet (_send_resolved beh error_limit message st name address
        (some es)).1.entries_by_name name
      = some (es.map (send_step_entry beh error_limit message address)) := by
  simp only [_send_resolved]
  split_ifs <;> dsimp only [] <;>
    rw [dictGet_dictSet_self _ _ _ hkey,
      send_loop_entries_nonbroadcast beh error_limit message name address
        hba es 0 false]

theorem dispatch_direct (beh : ChannelBehavior) (error_limit : Nat)
    (message : Packet) (fuel : Nat) (st : CommunicationManager)
    (name : String) (address : Address)
    (h : optListTruthy (dictGet st.entries_by_name name) = true) :
    _send_message_to_single_channel beh error_limit message (fuel + 1) st
        name address
      = _send_resolved beh error_limit message st name address
          (dictGet st.entries_by_name name) := by
  simp only [_send_message_to_single_channel, h, if_true]

/-- **C3.** When a packet is dispatched to a name with direct registry
entries, every entry in the list is visited in registration order and the
trace of channel invocations is exactly one send per entry that is open and
`can_send` (one broadcast instead when the address is the sentinel and the
entry is broadcast-capable), for **every** behaviour oracle — so iteration
does not stop at the first success and an exception on one entry never
prevents the attempts on the remaining entries.  Moreover, for a
non-broadcast address the entries stored under the name afterwards are the
pointwise images: untouched when skipped, `reset_error_count` on success,
`notify_error` — the error classifier — on an exception. -/
theorem dispatch_direct_entries_spec (beh : ChannelBehavior)
    (error_limit : Nat) (message : Packet) (fuel : Nat)
    (st : CommunicationManager) (name : String) (address : Address)
    (es : List Entry) (hes : dictGet st.entries_by_name name = some es)
    (hne : es ≠ []) :
    tx_attempts (_send_message_to_single_channel beh error_limit message
        (fuel + 1) st name address).2
      = es.filterMap (planned_attempt message address)
    ∧ (address ≠ Address.BROADCAST →
        dictGet (_send_message_to_single_channel beh error_limit message
            (fuel + 1) st name address).1.entries_by_name name
          = some (es.map (send_step_entry beh error_limit message
              address))) := by
  have htruthy : optListTruthy (dictGet st.entries_by_name name) = true := by
    rw [hes]
    cases es with
    | nil => exact absurd rfl hne
    | cons e rest => rfl
  rw [dispatch_direct beh error_limit message fuel st name address htruthy,
    hes]
  constructor
  · exact send_resolved_attempts beh error_limit message st name address es
  · intro hba
    exact send_resolved_entries_nonbroadcast beh error_limit message st
      name address es (by rw [hes]; rfl) hba

theorem dispatch_direct_entries_spec_witness :
    tx_attempts (_send_message_to_single_channel behOk 5 42 (1 + 1) mgrB
        "b" (Address.addr 9)).2
      = [entryB].filterMap (planned_attempt 42 (Address.addr 9))
    ∧ (Address.addr 9 ≠ Address.BROADCAST →
        dictGet (_send_message_to_single_channel behOk 5 42 (1 + 1) mgrB
            "b" (Address.addr 9)).1.entries_by_name "b"
          = some ([entryB].map (send_step_entry behOk 5 42
              (Address.addr 9)))) :=
  dispatch_direct_entries_spec behOk 5 42 1 mgrB "b" (Address.addr 9)
    [entryB] rfl (by simp)

/-! ### C5: alias resolution -/

/-- The channel of registered connection `"C"`. -/
def chC : MessageChannel := ⟨0, false⟩

def entryC : Entry :=
  { connection := 0, name := "C", can_send := true, channel := some chC }

/-- Manager with the alias chain `"A" → ["B"]`, `"B" → ["C"]` and one
working registered connection `"C"`. -/
def mgrChain : CommunicationManager :=
  { entries_by_name := [("C", [entryC])],
    aliases := [("A", ["B"]), ("B", ["C"])],
    error_counters := [] }

/-- Two connections registered under `"D"` and one under `"E"`. -/
def entryD1 : Entry :=
  { connection := 1, name := "D", channel := some ⟨1, false⟩ }

def entryD2 : Entry :=
  { connection := 2, name := "D", channel := some ⟨2, false⟩ }

def entryE : Entry :=
  { connection := 3, name := "E", can_broadcast := true,
    channel := some ⟨3, true⟩ }

/-- Manager with a mixed multi-target alias: `"G" → ["D", "H", "E"]`, where
`"D"` and `"E"` are registered names and `"H"` is itself an alias
(`"H" → ["E"]`) with no direct registry entries. -/
def mgrMixed : CommunicationManager :=
  { entries_by_name := [("D", [entryD1, entryD2]), ("E", [entryE])],
    aliases := [("G", ["D", "H", "E"]), ("H", ["E"])],
    error_counters := [] }

/-- **C5 counterexample.**  Both halves of the claim fail on the code.
Single target: with aliases `"A" → ["B"]` and `"B" → ["C"]` and a working
connection registered under `"C"`, dispatching to `"A"` invokes no channel
primitive at all — the single-target alias is resolved by one direct
registry lookup of `"B"` (lines 601-602), which has no entries, and the
chain to `"C"` is not followed — and instead increments the per-name
failure counter of `"B"` and leaves `"C"`'s entry untouched; the claim's
recursive resolution would reach `"C"`'s channel.  Multiple targets: in
`mgrMixed`, dispatching to `"G"` (targets `["D", "H", "E"]`, where `"H"`
is an alias for `"E"`) performs exactly the three sends of `"D"` and `"E"`:
the target `"H"` is skipped by the `target in self._entries_by_name` guard
(line 605) and nothing at all happens for it (its counter stays `0`),
whereas the claim's "dispatched recursively to each target name in list
order" would recursively dispatch to `"H"` and attempt `"E"`'s channel a
second time. -/
theorem alias_chain_not_followed :
    tx_attempts (_send_message_to_single_channel behOk 5 7 3 mgrChain "A"
        (Address.addr 1)).2 = []
    ∧ counterGet (_send_message_to_single_channel behOk 5 7 3 mgrChain "A"
        (Address.addr 1)).1.error_counters "B" = 1
    ∧ dictGet (_send_message_to_single_channel behOk 5 7 3 mgrChain "A"
        (Address.addr 1)).1.entries_by_name "C" = some [entryC]
    ∧ tx_attempts (_send_message_to_single_channel behOk 5 7 3 mgrMixed "G"
        (Address.addr 9)).2
      = [Event.sendAttempt ⟨1, false⟩ 7 (Address.addr 9),
         Event.sendAttempt ⟨2, false⟩ 7 (Address.addr 9),
         Event.sendAttempt ⟨3, true⟩ 7 (Address.addr 9)]
    ∧ counterGet (_send_message_to_single_channel behOk 5 7 3 mgrMixed "G"
        (Address.addr 9)).1.error_counters "H" = 0 :=
  ⟨rfl, rfl, rfl, rfl, rfl⟩

theorem send_resolved_entries_frame (beh : ChannelBehavior)
    (error_limit : Nat) (message : Packet) (st : CommunicationManager)
    (name : String) (address : Address) (entries : Option (List Entry))
    (k : String) (hk : k ≠ name) :
    dictGet (_send_resolved beh error_limit message st name address
        entries).1.entries_by_name k
      = dictGet st.entries_by_name k := by
  simp only [_send_resolved]
  cases entries <;> split_ifs <;> (try dsimp only []) <;>
    first
      | rfl
      | rw [dictGet_dictSet_ne _ _ _ _ hk]

theorem send_resolved_no_entries (beh : ChannelBehavior) (error_limit : Nat)
    (message : Packet) (st : CommunicationManager) (name : String)
    (address : Address) (entries : Option (List Entry))
    (h : optListTruthy entries = false) :
    tx_attempts (_send_resolved beh error_limit message st name address
        entries).2 = []
    ∧ counterGet (_send_resolved beh error_limit message st name address
        entries).1.error_counters name
      = counterGet st.error_counters name + 1 := by
  have hcases : entries = none ∨ entries = some [] := by
    cases entries with
    | none => exact Or.inl rfl
    | some l =>
      cases l with
      | nil => exact Or.inr rfl
      | cons a t => simp [optListTruthy] at h
  rcases hcases with rfl | rfl <;>
    constructor <;> simp only [_send_resolved] <;>
      split_ifs <;> (try dsimp only []) <;>
        first
          | (exfalso; simp_all [_send_loop]; done)
          | rfl
          | rw [counterGet_counterSet_self]

theorem flatMap_congr_mem {α β : Type} (l : List α) (f g : α → List β)
    (h : ∀ a ∈ l, f a = g a) : l.flatMap f = l.flatMap g := by
  induction l with
  | nil => rfl
  | cons a t ih =>
    rw [List.flatMap_cons, List.flatMap_cons, h a (List.mem_cons_self a t),
      ih (fun x hx => h x (List.mem_cons_of_mem a hx))]

theorem fanout_attempts (beh : ChannelBehavior) (error_limit : Nat)
    (message : Packet) (f : Nat) (address : Address) :
    ∀ (ts : List String) (st : CommunicationManager) (acc : List Event),
      (∀ t ∈ ts, dictGet st.entries_by_name t = none
        ∨ optListTruthy (dictGet st.entries_by_name t) = true) →
      ts.Nodup →
      tx_attempts (ts.foldl
          (fun acc target =>
            if (dictGet acc.1.entries_by_name target).isSome then
              let r := _send_message_to_single_channel beh error_limit
                message (f + 1) acc.1 target address
              (r.1, acc.2 ++ r.2)
            else acc)
          (st, acc)).2
        = tx_attempts acc
          ++ ts.flatMap (fun t =>
              ((dictGet st.entries_by_name t).getD []).filterMap
                (planned_attempt message address)) := by
  intro ts
  induction ts with
  | nil =>
    intro st acc _ _
    simp [List.foldl_nil]
  | cons t rest ih =>
    intro st acc hpres hnd
    have hnotin : t ∉ rest := (List.nodup_cons.mp hnd).1
    have hnd' : rest.Nodup := (List.nodup_cons.mp hnd).2
    rcases hpres t (List.mem_cons_self t rest) with hnone | ht
    · -- the target is no registry key: the membership guard skips it and
      -- the dispatch state is unchanged
      rw [List.foldl_cons]
      dsimp only []
      rw [if_neg (by rw [hnone]; simp),
        ih st acc (fun x hx => hpres x (List.mem_cons_of_mem t hx)) hnd',
        List.flatMap_cons, hnone]
      dsimp only [Option.getD]
      rw [List.filterMap_nil, List.nil_append]
    · obtain ⟨es, hes⟩ : ∃ es, dictGet st.entries_by_name t = some es := by
        cases hd : dictGet st.entries_by_name t with
        | none => rw [hd] at ht; simp [optListTruthy] at ht
        | some l => exact ⟨l, rfl⟩
      have hsome : (dictGet st.entries_by_name t).isSome := by
        rw [hes]; rfl
      have hdis : _send_message_to_single_channel beh error_limit message
          (f + 1) st t address
        = _send_resolved beh error_limit message st t address (some es) := by
        rw [dispatch_direct beh error_limit message f st t address ht, hes]
      have hpres' : ∀ t' ∈ rest,
          dictGet (_send_resolved beh error_limit message st t address
            (some es)).1.entries_by_name t' = none
          ∨ optListTruthy (dictGet (_send_resolved beh error_limit message
              st t address (some es)).1.entries_by_name t') = true := by
        intro t' ht'
        have hne : t' ≠ t := fun hq => hnotin (hq ▸ ht')
        rw [send_resolved_entries_frame beh error_limit message st t address
          (some es) t' hne]
        exact hpres t' (List.mem_cons_of_mem t ht')
      have hframe : ∀ t' ∈ rest,
          ((dictGet (_send_resolved beh error_limit message st t address
              (some es)).1.entries_by_name t').getD []).filterMap
            (planned_attempt message address)
          = ((dictGet st.entries_by_name t').getD []).filterMap
              (planned_attempt message address) := by
        intro t' ht'
        have hne : t' ≠ t := fun hq => hnotin (hq ▸ ht')
        rw [send_resolved_entries_frame beh error_limit message st t address
          (some es) t' hne]
      rw [List.foldl_cons]
      dsimp only []
      rw [if_pos hsome, hdis,
        ih ((_send_resolved beh error_limit message st t address
            (some es)).1)
          (acc ++ (_send_resolved beh error_limit message st t address
            (some es)).2) hpres' hnd',
        tx_attempts_append,
        send_resolved_attempts beh error_limit message st t address es,
        flatMap_congr_mem rest _ _ hframe,
        List.flatMap_cons, hes]
      dsimp only [Option.getD]
      rw [List.append_assoc]

/-- **C5 (amended).** For a destination name with no direct registry
entries (over any fuel and behaviour oracle): (a) an alias with exactly one
target `t` is resolved by a single direct registry lookup of `t` — the
dispatch equals the resolved-send on `t`, so alias-of-alias chains are
not followed, and when `t` itself has no direct entries the dispatch
invokes no channel primitive and increments `t`'s per-name failure counter
instead of reaching the chained target; (b) an alias with two or more
targets dispatches the same message recursively to each target in list
order that is a registry key, and silently skips every target that is not
(targets that are themselves aliases among them): for pairwise-distinct
targets, each either absent from the registry or with a non-empty entry
list (the manager never creates an empty binding), the invocation trace is
the concatenation, in list order, of the per-target attempt lists computed
from the original state — a skipped target contributing nothing — for
every behaviour oracle, so a failure on one target never prevents the
attempts on the remaining targets. -/
theorem alias_resolution_spec (beh : ChannelBehavior) (error_limit : Nat)
    (message : Packet) (fuel : Nat) (st : CommunicationManager)
    (name : String) (address : Address)
    (hentries : optListTruthy (dictGet st.entries_by_name name) = false) :
    (∀ t, dictGet st.aliases name = some [t] →
      _send_message_to_single_channel beh error_limit message (fuel + 1) st
          name address
        = _send_resolved beh error_limit message st t address
            (dictGet st.entries_by_name t)
      ∧ (optListTruthy (dictGet st.entries_by_name t) = false →
          tx_attempts (_send_message_to_single_channel beh error_limit
              message (fuel + 1) st name address).2 = []
          ∧ counterGet (_send_message_to_single_channel beh error_limit
              message (fuel + 1) st name address).1.error_counters t
            = counterGet st.error_counters t + 1))
    ∧ (∀ t1 t2 rest, dictGet st.aliases name = some (t1 :: t2 :: rest) →
        (t1 :: t2 :: rest).Nodup →
        (∀ t ∈ t1 :: t2 :: rest,
          dictGet st.entries_by_name t = none
          ∨ optListTruthy (dictGet st.entries_by_name t) = true) →
        tx_attempts (_send_message_to_single_channel beh error_limit
            message (fuel + 2) st name address).2
          = (t1 :: t2 :: rest).flatMap (fun t =>
              ((dictGet st.entries_by_name t).getD []).filterMap
                (planned_attempt message address))) := by
  constructor
  · intro t halias
    have heq : _send_message_to_single_channel beh error_limit message
        (fuel + 1) st name address
      = _send_resolved beh error_limit message st t address
          (dictGet st.entries_by_name t) := by
      simp only [_send_message_to_single_channel, hentries,
        Bool.false_eq_true, if_false, halias]
    refine ⟨heq, fun htf => ?_⟩
    rw [heq]
    exact send_resolved_no_entries beh error_limit message st t address
      (dictGet st.entries_by_name t) htf
  · intro t1 t2 rest halias hnd hpres
    have heq : _send_message_to_single_channel beh error_limit message
        (fuel + 2) st name address
      = (t1 :: t2 :: rest).foldl
          (fun acc target =>
            if (dictGet acc.1.entries_by_name target).isSome then
              let r := _send_message_to_single_channel beh error_limit
                message (fuel + 1) acc.1 target address
              (r.1, acc.2 ++ r.2)
            else acc)
          (st, ([] : List Event)) := by
      simp only [_send_message_to_single_channel, hentries,
        Bool.false_eq_true, if_false, halias]
    rw [heq, fanout_attempts beh error_limit message fuel address
      (t1 :: t2 :: rest) st [] hpres hnd]
    rfl

theorem alias_resolution_spec_witness :
    tx_attempts (_send_message_to_single_channel behOk 5 7 (1 + 2) mgrMixed
        "G" (Address.addr 9)).2
      = (["D", "H", "E"] : List String).flatMap (fun t =>
          ((dictGet mgrMixed.entries_by_name t).getD []).filterMap
            (planned_attempt 7 (Address.addr 9))) :=
  (alias_resolution_spec behOk 5 7 1 mgrMixed "G" (Address.addr 9) rfl).2
    "D" "H" ["E"] rfl (by decide) (by decide)

end Comm
